import Mathlib

/-!
Shallow embedding of the eclipse-finder location parsing and visibility
matching core (location_resolver.py and eclipse_matcher.py), together with
theorems settling the specification claims about it.

Strings are modelled by Lean strings; Python dictionaries are modelled as
association lists in insertion order, with lookup taking the last binding so
that a later insertion overwrites an earlier one, exactly as dict assignment
does.  Python truthiness on optional strings (None and the empty string are
falsy) is modelled by the function truthy.
-/

set_option maxRecDepth 4096

namespace EclipseFinder

/-- ASCII whitespace characters recognised by Python's str.strip and the
regular-expression class backslash-s. -/
def pyWS (c : Char) : Bool :=
  c == ' ' || c == '\t' || c == '\n' || c == '\r' || c == '\x0b' || c == '\x0c'

/-- Drop characters satisfying p from both ends of a character list, as
Python's two-argument str.strip does. -/
def stripChars (p : Char → Bool) (l : List Char) : List Char :=
  ((l.dropWhile p).reverse.dropWhile p).reverse

/-- Python str.strip with no argument: trim whitespace from both ends. -/
def strip (s : String) : String :=
  ⟨stripChars pyWS s.data⟩

/-- Python str.lower restricted to its ASCII behaviour. -/
def lowerS (s : String) : String :=
  ⟨s.data.map Char.toLower⟩

/-- Split a character list at every separator character, keeping empty
pieces, as Python's one-argument str.split does. -/
def splitChar (p : Char → Bool) : List Char → List (List Char)
  | [] => [[]]
  | c :: rest =>
    let r := splitChar p rest
    if p c then [] :: r
    else
      match r with
      | [] => [[c]]
      | h :: t => (c :: h) :: t

/-- Python raw.split with a comma argument. -/
def splitComma (s : String) : List String :=
  (splitChar (fun c => c == ',') s.data).map (fun l => (⟨l⟩ : String))

/-- Python str.split with no argument: whitespace-separated words, empty
pieces discarded. -/
def wordsOf (s : String) : List String :=
  ((splitChar pyWS s.data).map (fun l => (⟨l⟩ : String))).filter (fun w => w ≠ "")

/-- The source's helper of the same name: strip, lowercase, and collapse
internal whitespace runs to single spaces. -/
def _normalise_token (s : String) : String :=
  String.intercalate " " (wordsOf (lowerS (strip s)))

/-- Python truthiness of an optional string: None and the empty string are
falsy, every other string is truthy. -/
def truthy : Option String → Bool
  | none => false
  | some s => !(s == "")

/-- Dictionary lookup over an insertion-ordered association list: the last
binding for a key wins, matching assignment-overwrite in a Python dict. -/
def dictGet {κ α : Type} [BEq κ] (entries : List (κ × α)) (key : κ) : Option α :=
  (entries.reverse.find? (fun e => e.1 == key)).map (fun e => e.2)

/-- Python membership of a lowercase Latin-1 word character, the ASCII part
of the regular-expression class backslash-w. -/
def isWordChar (c : Char) : Bool :=
  c.isAlpha || c.isDigit || c == '_'

/-- Numeric value of a digit string, as Python int() on an all-digit
string. -/
def natOfDigits (l : List Char) : Nat :=
  l.foldl (fun n c => 10 * n + (c.toNat - 48)) 0

/-- The country alias table _COUNTRY_CANONICAL, in source order. -/
def _COUNTRY_CANONICAL : List (String × String) :=
  [("united states", "United States"),
   ("united states of america", "United States"),
   ("usa", "United States"),
   ("us", "United States"),
   ("canada", "Canada"),
   ("mexico", "Mexico"),
   ("spain", "Spain"),
   ("france", "France"),
   ("united kingdom", "United Kingdom"),
   ("uk", "United Kingdom"),
   ("great britain", "United Kingdom"),
   ("ireland", "Ireland"),
   ("portugal", "Portugal"),
   ("brazil", "Brazil"),
   ("argentina", "Argentina"),
   ("chile", "Chile"),
   ("peru", "Peru"),
   ("greenland", "Greenland"),
   ("iceland", "Iceland"),
   ("morocco", "Morocco"),
   ("algeria", "Algeria"),
   ("libya", "Libya"),
   ("egypt", "Egypt"),
   ("saudi arabia", "Saudi Arabia"),
   ("uae", "United Arab Emirates"),
   ("united arab emirates", "United Arab Emirates"),
   ("oman", "Oman"),
   ("yemen", "Yemen"),
   ("india", "India"),
   ("bangladesh", "Bangladesh"),
   ("china", "China"),
   ("japan", "Japan"),
   ("south korea", "South Korea"),
   ("korea", "South Korea"),
   ("pakistan", "Pakistan"),
   ("nigeria", "Nigeria"),
   ("kenya", "Kenya"),
   ("south africa", "South Africa"),
   ("germany", "Germany"),
   ("italy", "Italy"),
   ("tunisia", "Tunisia"),
   ("new zealand", "New Zealand"),
   ("australia", "Australia")]

/-- The macro-region table _COUNTRY_MACROREGIONS; set values become lists,
since only membership is ever used. -/
def _COUNTRY_MACROREGIONS : List (String × List String) :=
  [("United States", ["north america"]),
   ("Canada", ["north america"]),
   ("Mexico", ["north america"]),
   ("Greenland", ["north america", "arctic"]),
   ("Iceland", ["europe", "north atlantic"]),
   ("Spain", ["europe"]),
   ("France", ["europe"]),
   ("United Kingdom", ["europe"]),
   ("Ireland", ["europe"]),
   ("Portugal", ["europe"]),
   ("Germany", ["europe"]),
   ("Italy", ["europe"]),
   ("Morocco", ["africa", "north africa"]),
   ("Algeria", ["africa", "north africa"]),
   ("Libya", ["africa", "north africa"]),
   ("Tunisia", ["africa", "north africa"]),
   ("Egypt", ["africa", "north africa", "middle east"]),
   ("Saudi Arabia", ["asia", "middle east"]),
   ("United Arab Emirates", ["asia", "middle east"]),
   ("Oman", ["asia", "middle east"]),
   ("Yemen", ["asia", "middle east"]),
   ("India", ["asia", "south asia"]),
   ("Bangladesh", ["asia", "south asia"]),
   ("Pakistan", ["asia", "south asia"]),
   ("China", ["asia", "east asia"]),
   ("Japan", ["asia", "east asia"]),
   ("South Korea", ["asia", "east asia"]),
   ("Kenya", ["africa", "east africa"]),
   ("Nigeria", ["africa", "west africa"]),
   ("South Africa", ["africa"]),
   ("Brazil", ["south america"]),
   ("Argentina", ["south america"]),
   ("Chile", ["south america"]),
   ("Australia", ["oceania"]),
   ("New Zealand", ["oceania"])]

def _US_STATES : List (String × String) :=
  [("Alabama", "AL"), ("Alaska", "AK"), ("Arizona", "AZ"), ("Arkansas", "AR"),
   ("California", "CA"), ("Colorado", "CO"), ("Connecticut", "CT"),
   ("Delaware", "DE"), ("District of Columbia", "DC"), ("Florida", "FL"),
   ("Georgia", "GA"), ("Hawaii", "HI"), ("Idaho", "ID"), ("Illinois", "IL"),
   ("Indiana", "IN"), ("Iowa", "IA"), ("Kansas", "KS"), ("Kentucky", "KY"),
   ("Louisiana", "LA"), ("Maine", "ME"), ("Maryland", "MD"),
   ("Massachusetts", "MA"), ("Michigan", "MI"), ("Minnesota", "MN"),
   ("Mississippi", "MS"), ("Missouri", "MO"), ("Montana", "MT"),
   ("Nebraska", "NE"), ("Nevada", "NV"), ("New Hampshire", "NH"),
   ("New Jersey", "NJ"), ("New Mexico", "NM"), ("New York", "NY"),
   ("North Carolina", "NC"), ("North Dakota", "ND"), ("Ohio", "OH"),
   ("Oklahoma", "OK"), ("Oregon", "OR"), ("Pennsylvania", "PA"),
   ("Rhode Island", "RI"), ("South Carolina", "SC"), ("South Dakota", "SD"),
   ("Tennessee", "TN"), ("Texas", "TX"), ("Utah", "UT"), ("Vermont", "VT"),
   ("Virginia", "VA"), ("Washington", "WA"), ("West Virginia", "WV"),
   ("Wisconsin", "WI"), ("Wyoming", "WY"), ("Puerto Rico", "PR")]

def _CANADA_PROVINCES : List (String × String) :=
  [("Alberta", "AB"), ("British Columbia", "BC"), ("Manitoba", "MB"),
   ("New Brunswick", "NB"), ("Newfoundland and Labrador", "NL"),
   ("Northwest Territories", "NT"), ("Nova Scotia", "NS"), ("Nunavut", "NU"),
   ("Ontario", "ON"), ("Prince Edward Island", "PE"), ("Quebec", "QC"),
   ("Saskatchewan", "SK"), ("Yukon", "YT")]

def _MEXICO_STATES : List (String × String) :=
  [("Sinaloa", "SIN"), ("Coahuila", "COA"), ("Nuevo Leon", "NLE"),
   ("Durango", "DUR")]

def _SPAIN_REGIONS : List (String × String) :=
  [("Galicia", ""), ("Asturias", ""), ("Castile and Leon", ""),
   ("Basque Country", ""), ("Navarre", ""), ("Aragon", ""), ("Catalonia", "")]

def _AUSTRALIA_STATES : List (String × String) :=
  [("New South Wales", "NSW"), ("Queensland", "QLD"),
   ("Northern Territory", "NT"), ("Western Australia", "WA"),
   ("Victoria", "VIC"), ("South Australia", "SA"), ("Tasmania", "TAS")]

def _NEW_ZEALAND_REGIONS : List (String × String) :=
  [("North Island", ""), ("South Island", ""), ("Southland", ""),
   ("Otago", "")]

/-- The add helper inside _build_region_aliases: each (name, abbr) pair
contributes a lowercased-name key and, when the abbreviation is non-empty, a
lowercased-abbreviation key, both mapping to the canonical name and the
owning country. -/
def regionEntriesFor (entries : List (String × String))
    (country : Option String) : List (String × String × Option String) :=
  entries.foldr
    (fun e acc =>
      (lowerS e.1, e.1, country)
        :: ((if e.2 ≠ "" then [(lowerS e.2, e.1, country)] else []) ++ acc))
    []

/-- The extra region-level aliases added at the end of
_build_region_aliases, none of them tied to a country. -/
def _REGION_ALIAS_EXTRA : List (String × String × Option String) :=
  [("north america", "North America", none),
   ("south america", "South America", none),
   ("central america", "Central America", none),
   ("europe", "Europe", none),
   ("western europe", "Western Europe", none),
   ("eastern europe", "Eastern Europe", none),
   ("africa", "Africa", none),
   ("north africa", "North Africa", none),
   ("east africa", "East Africa", none),
   ("west africa", "West Africa", none),
   ("middle east", "Middle East", none),
   ("south asia", "South Asia", none),
   ("east asia", "East Asia", none),
   ("oceania", "Oceania", none),
   ("arctic", "Arctic", none)]

/-- _build_region_aliases: all entries in insertion order; dictGet over this
list (last binding wins) models the resulting dict. -/
def _REGION_ALIAS_LOOKUP : List (String × String × Option String) :=
  regionEntriesFor _US_STATES (some "United States")
    ++ regionEntriesFor _CANADA_PROVINCES (some "Canada")
    ++ regionEntriesFor _MEXICO_STATES (some "Mexico")
    ++ regionEntriesFor _SPAIN_REGIONS (some "Spain")
    ++ regionEntriesFor _AUSTRALIA_STATES (some "Australia")
    ++ regionEntriesFor _NEW_ZEALAND_REGIONS (some "New Zealand")
    ++ _REGION_ALIAS_EXTRA

/-- The ZIP prefix range table _ZIP_STATE_RANGES, in source order:
(inclusive lower bound, inclusive upper bound, region name). -/
def _ZIP_STATE_RANGES : List (Nat × Nat × String) :=
  [(5, 9, "Puerto Rico"), (10, 27, "Massachusetts"), (28, 29, "Rhode Island"),
   (30, 38, "New Hampshire"), (39, 49, "Maine"), (50, 59, "Vermont"),
   (60, 69, "Connecticut"), (70, 89, "New Jersey"),
   (90, 98, "Armed Forces Europe"), (100, 149, "New York"),
   (150, 196, "Pennsylvania"), (197, 199, "Delaware"),
   (200, 205, "District of Columbia"), (206, 219, "Maryland"),
   (220, 246, "Virginia"), (247, 268, "West Virginia"),
   (270, 289, "North Carolina"), (290, 299, "South Carolina"),
   (300, 319, "Georgia"), (320, 349, "Florida"), (350, 369, "Alabama"),
   (370, 385, "Tennessee"), (386, 397, "Mississippi"), (398, 399, "Georgia"),
   (400, 427, "Kentucky"), (430, 459, "Ohio"), (460, 479, "Indiana"),
   (480, 499, "Michigan"), (500, 528, "Iowa"), (530, 549, "Wisconsin"),
   (550, 567, "Minnesota"), (570, 577, "South Dakota"),
   (580, 588, "North Dakota"), (590, 599, "Montana"), (600, 629, "Illinois"),
   (630, 658, "Missouri"), (660, 679, "Kansas"), (680, 693, "Nebraska"),
   (700, 715, "Louisiana"), (716, 729, "Arkansas"), (730, 749, "Oklahoma"),
   (750, 799, "Texas"), (800, 816, "Colorado"), (820, 831, "Wyoming"),
   (832, 838, "Idaho"), (840, 847, "Utah"), (850, 865, "Arizona"),
   (870, 884, "New Mexico"), (889, 898, "Nevada"), (900, 961, "California"),
   (962, 966, "Armed Forces Pacific"), (967, 968, "Hawaii"),
   (970, 979, "Oregon"), (980, 994, "Washington"), (995, 999, "Alaska")]

/-- The first-letter table for the Canadian postal system. -/
def _CANADA_POSTAL_PREFIXES : List (Char × String) :=
  [('A', "Newfoundland and Labrador"), ('B', "Nova Scotia"),
   ('C', "Prince Edward Island"), ('E', "New Brunswick"), ('G', "Quebec"),
   ('H', "Quebec"), ('J', "Quebec"), ('K', "Ontario"), ('L', "Ontario"),
   ('M', "Ontario"), ('N', "Ontario"), ('P', "Ontario"), ('R', "Manitoba"),
   ('S', "Saskatchewan"), ('T', "Alberta"), ('V', "British Columbia"),
   ('X', "Nunavut"), ('Y', "Yukon")]

/-- The for-loop over _ZIP_STATE_RANGES in _resolve_us_zip: scan in table
order and return on the first inclusive range containing the prefix.  The
source computes the same country string in both arms of its conditional, so
the country is always the same. -/
def zipRangeScan (p : Nat) : List (Nat × Nat × String) → Option (String × String)
  | [] => none
  | (lo, hi, st) :: rest =>
    if lo ≤ p && p ≤ hi then some (st, "United States") else zipRangeScan p rest

/-- _resolve_us_zip: keep only digit characters, require at least three, and
resolve by the 3-digit numeric prefix.  The int conversion of an all-digit
string cannot fail, so the source's try-except is not reachable. -/
def _resolve_us_zip (zip_code : String) : Option (String × String) :=
  let digits := zip_code.data.filter Char.isDigit
  if digits.length < 3 then none
  else zipRangeScan (natOfDigits (digits.take 3)) _ZIP_STATE_RANGES

/-- _resolve_canadian_postal: remove spaces, uppercase, and map the first
letter through the prefix table. -/
def _resolve_canadian_postal (code : String) : Option (String × String) :=
  let cleaned := (code.data.filter (fun c => !(c == ' '))).map Char.toUpper
  match cleaned with
  | [] => none
  | first :: _ =>
    match dictGet _CANADA_POSTAL_PREFIXES first with
    | some province => some (province, "Canada")
    | none => none

/-- Shape of a US ZIP code: five digits, optionally followed by a hyphen and
four digits (the regular expression for digits, 5-then-optional-4). -/
def zipShape (l : List Char) : Bool :=
  (l.length == 5 && l.all Char.isDigit)
    || (l.length == 10 && (l.take 5).all Char.isDigit
        && ((l.drop 5).headD ' ') == '-' && (l.drop 6).all Char.isDigit)

/-- Letter-digit-letter triple, the first half of the Canadian postal
shape. -/
def ldl (l : List Char) : Bool :=
  l.length == 3 && (l.headD ' ').isAlpha && ((l.drop 1).headD ' ').isDigit
    && ((l.drop 2).headD ' ').isAlpha

/-- Digit-letter-digit triple, the second half of the Canadian postal
shape. -/
def dld (l : List Char) : Bool :=
  l.length == 3 && (l.headD ' ').isDigit && ((l.drop 1).headD ' ').isAlpha
    && ((l.drop 2).headD ' ').isDigit

/-- Shape of a Canadian postal code: letter-digit-letter, optionally
followed by an optional single whitespace and digit-letter-digit. -/
def canShape (l : List Char) : Bool :=
  ldl l
    || (l.length == 6 && ldl (l.take 3) && dld (l.drop 3))
    || (l.length == 7 && ldl (l.take 3) && pyWS ((l.drop 3).headD ' ')
        && dld (l.drop 4))

/-- resolve_postal_code: strip, reject empty input, and dispatch on the two
postal shapes. -/
def resolve_postal_code (code : String) : Option (String × String) :=
  let code := strip code
  if code = "" then none
  else if zipShape code.data then _resolve_us_zip code
  else if canShape code.data then _resolve_canadian_postal code
  else none

/-- The LocationQuery dataclass. -/
structure LocationQuery where
  raw : String
  city : Option String := none
  region : Option String := none
  country : Option String := none
  postal_code : Option String := none
  deriving DecidableEq

/-- LocationQuery.tokens: the lowercase token set derived from the set
(truthy) fields.  The Python set is modelled by a list; only membership is
ever used, so duplicates and order are irrelevant. -/
def tokens (q : LocationQuery) : List String :=
  (if truthy q.city then
      (wordsOf (q.city.getD "")).map lowerS ++ [lowerS (q.city.getD "")]
    else [])
    ++ (if truthy q.region then
          lowerS (q.region.getD "") :: (wordsOf (q.region.getD "")).map lowerS
        else [])
    ++ (if truthy q.country then
          lowerS (q.country.getD "")
            :: (_COUNTRY_CANONICAL.filterMap
                  (fun e => if e.2 == q.country.getD "" then some e.1 else none)
                ++ (dictGet _COUNTRY_MACROREGIONS (q.country.getD "")).getD [])
        else [])

/-- normalize_country: falsy input gives none; otherwise look the
normalised token up in the country table, falling back to the stripped
name. -/
def normalize_country (name : Option String) : Option String :=
  match name with
  | none => none
  | some n =>
    if n = "" then none
    else some ((dictGet _COUNTRY_CANONICAL (_normalise_token n)).getD (strip n))

/-- normalize_region: falsy input gives none; otherwise look the normalised
token up in the region alias table and return the canonical name, falling
back to the stripped name. -/
def normalize_region (name : Option String) : Option String :=
  match name with
  | none => none
  | some n =>
    if n = "" then none
    else
      match dictGet _REGION_ALIAS_LOOKUP (_normalise_token n) with
      | some rc => some rc.1
      | none => some (strip n)

/-- The search for the regular expression word-boundary, two Latin letters,
end-of-string in the city text: succeeds exactly when the last two
characters are letters and the character before them, if any, is not a word
character. -/
def trailingTwoLetters (s : String) : Option String :=
  match s.data.reverse with
  | b :: a :: rest =>
    if a.isAlpha && b.isAlpha
        && (match rest with
            | [] => true
            | r :: _ => !(isWordChar r)) then
      some ⟨[a, b]⟩
    else none
  | _ => none

/-- One iteration of the reverse segment loop in parse_location_input, on
the accumulator (city, region, country). -/
def classifyStep (acc : Option String × Option String × Option String)
    (component : String) : Option String × Option String × Option String :=
  let (city, region, country) := acc
  let token := _normalise_token component
  if !(truthy country) && truthy (dictGet _COUNTRY_CANONICAL token) then
    (city, region, dictGet _COUNTRY_CANONICAL token)
  else if !(truthy region) && (dictGet _REGION_ALIAS_LOOKUP token).isSome then
    match dictGet _REGION_ALIAS_LOOKUP token with
    | some (name, inferred) =>
      (city, some name,
       if truthy inferred && !(truthy country) then inferred else country)
    | none => (city, region, country)
  else if !(truthy city) then
    (some (strip component), region, country)
  else
    (some (strip component ++ " " ++ city.getD ""), region, country)

/-- The reverse segment loop of parse_location_input: a left fold of
classifyStep over the reversed segment list, starting from three empty
fields. -/
def classifySegments (components : List String) :
    Option String × Option String × Option String :=
  components.reverse.foldl classifyStep (none, none, none)

/-- The comma-separated, stripped, non-empty segments of the trimmed
input. -/
def componentsOf (raw : String) : List String :=
  ((splitComma raw).map strip).filter (fun c => c ≠ "")

/-- Steps 2 to 6 of parse_location_input on the already-split segment list:
the reverse classification loop, the leftmost-segment city fallback, the
trailing two-letter region peel, country inference from the region, the city
cleanup and collapse rules, and the final country and region
normalization. -/
def parseFromComponents (user_input : String) (components : List String) :
    LocationQuery :=
  let s0 := classifySegments components
  let city0 := s0.1
  let region0 := s0.2.1
  let country0 := s0.2.2
  let city1 :=
    if !(truthy city0) && !components.isEmpty then
      some (strip (components.headD ""))
    else city0
  let peeled :=
    if truthy city1 then
      match trailingTwoLetters (city1.getD "") with
      | some ab =>
        if !(truthy region0) then
          match dictGet _REGION_ALIAS_LOOKUP (lowerS ab) with
          | some (name, inferred) =>
            let c := city1.getD ""
            let cut :=
              strip ⟨stripChars (fun ch => ch == ',' || ch == ' ')
                       (c.data.take (c.data.length - 2))⟩
            ((if cut = "" then none else some cut), some name,
             if truthy inferred && !(truthy country0) then inferred
             else country0)
          | none => (city1, region0, country0)
        else (city1, region0, country0)
      | none => (city1, region0, country0)
    else (city1, region0, country0)
  let city2 := peeled.1
  let region2 := peeled.2.1
  let country2 := peeled.2.2
  let country3 :=
    if truthy region2 && !(truthy country2) then
      match dictGet _REGION_ALIAS_LOOKUP (lowerS (region2.getD "")) with
      | some (_, inferred) => if truthy inferred then inferred else country2
      | none => country2
    else country2
  let city3 :=
    if truthy city2 then
      (if strip (city2.getD "") = "" then none else some (strip (city2.getD "")))
    else city2
  let city4 :=
    if truthy city3 && truthy region2
        && lowerS (city3.getD "") == lowerS (region2.getD "") then none
    else city3
  let city5 :=
    if truthy city4 && truthy country3
        && lowerS (city4.getD "") == lowerS (country3.getD "") then none
    else city4
  { raw := user_input, city := city5, region := normalize_region region2,
    country := normalize_country country3, postal_code := none }

/-- parse_location_input: reject whitespace-only input with the empty-input
error, short-circuit on the two postal shapes, and otherwise run the
comma-split parse. -/
def parse_location_input (user_input : String) :
    Except String LocationQuery :=
  let raw := strip user_input
  if raw = "" then Except.error "Location input cannot be empty."
  else if zipShape raw.data || canShape raw.data then
    let lookup := resolve_postal_code raw
    Except.ok { raw := user_input, city := none,
                region := lookup.map Prod.fst,
                country := lookup.map Prod.snd,
                postal_code := some raw }
  else Except.ok (parseFromComponents user_input (componentsOf raw))

/-- The VisibilityWindow dataclass; notes take no part in matching. -/
structure VisibilityWindow where
  countries : List String
  regions : List String
  notes : String := ""
  deriving DecidableEq

/-- The EclipseEvent dataclass; the date is modelled by an ordinal day
number, which preserves the order comparisons the matcher performs. -/
structure EclipseEvent where
  occurs_on : Nat
  kind : String
  subtype : String
  title : String
  visibility : List VisibilityWindow
  peak_description : String := ""
  deriving DecidableEq

/-- Non-empty intersection of two token lists, the truthiness of a Python
set intersection. -/
def interB (a b : List String) : Bool :=
  a.any (fun x => b.contains x)

/-- The country gate at the top of _window_matches_location: with a
non-empty country list, a location with a truthy country passes when its
lowercased country is listed or its tokens intersect the list, and a
location without one passes only on token intersection. -/
def _window_country_gate (w : VisibilityWindow) (loc : LocationQuery) : Bool :=
  let location_tokens := tokens loc
  let country_tokens := w.countries.map lowerS
  if country_tokens.isEmpty then true
  else if truthy loc.country then
    country_tokens.contains (lowerS (loc.country.getD ""))
      || interB location_tokens country_tokens
  else interB location_tokens country_tokens

/-- _window_matches_location: the country gate followed by the region
checks, with early returns flattened into one conditional chain. -/
def _window_matches_location (w : VisibilityWindow) (loc : LocationQuery) :
    Bool :=
  let location_tokens := tokens loc
  let country_tokens := w.countries.map lowerS
  let region_tokens := w.regions.map lowerS
  if !(_window_country_gate w loc) then false
  else if region_tokens.isEmpty then true
  else if truthy loc.region
      && region_tokens.contains (lowerS (loc.region.getD "")) then true
  else if interB location_tokens region_tokens then true
  else if decide (loc.region = none) && !country_tokens.isEmpty
      && truthy loc.country
      && country_tokens.contains (lowerS (loc.country.getD "")) then true
  else false

/-- is_visible_from: some visibility window of the event matches the
location. -/
def is_visible_from (event : EclipseEvent) (loc : LocationQuery) : Bool :=
  event.visibility.any (fun w => _window_matches_location w loc)

/-- next_visible_event: scan the event sequence in order, skip events dated
before the reference date, and return the first visible one.  The reference
date is an explicit argument; the source's fallback to today's date is the
caller's concern. -/
def next_visible_event (events : List EclipseEvent) (loc : LocationQuery)
    (reference_date : Nat) : Option EclipseEvent :=
  match events with
  | [] => none
  | event :: rest =>
    if event.occurs_on < reference_date then
      next_visible_event rest loc reference_date
    else if is_visible_from event loc then some event
    else next_visible_event rest loc reference_date

/-! ### Helper lemmas about the string machinery -/

theorem dropWhile_eq_nil_of_all {p : Char → Bool} {l : List Char}
    (h : ∀ c ∈ l, p c = true) : l.dropWhile p = [] := by
  induction l with
  | nil => rfl
  | cons c rest ih =>
    rw [List.dropWhile_cons, if_pos (h c (List.mem_cons_self c rest))]
    exact ih (fun d hd => h d (List.mem_cons_of_mem c hd))

theorem stripChars_eq_nil_of_all {p : Char → Bool} {l : List Char}
    (h : ∀ c ∈ l, p c = true) : stripChars p l = [] := by
  unfold stripChars
  rw [dropWhile_eq_nil_of_all h]
  rfl

theorem mem_of_mem_stripChars {p : Char → Bool} {l : List Char} {c : Char}
    (h : c ∈ stripChars p l) : c ∈ l := by
  unfold stripChars at h
  rw [List.mem_reverse] at h
  have h2 := (List.dropWhile_sublist p).subset h
  rw [List.mem_reverse] at h2
  exact (List.dropWhile_sublist p).subset h2

theorem splitChar_mem {p : Char → Bool} {l piece : List Char}
    (hp : piece ∈ splitChar p l) : ∀ c ∈ piece, c ∈ l ∧ p c = false := by
  induction l generalizing piece with
  | nil =>
    intro c hc
    simp only [splitChar, List.mem_singleton] at hp
    subst hp
    simp at hc
  | cons a rest ih =>
    intro c hc
    unfold splitChar at hp
    by_cases ha : p a = true
    · rw [if_pos ha] at hp
      rcases List.mem_cons.mp hp with h | h
      · subst h; simp at hc
      · have h2 := ih h c hc
        exact ⟨List.mem_cons_of_mem _ h2.1, h2.2⟩
    · rw [if_neg ha] at hp
      have ha' : p a = false := by
        cases hpa : p a with
        | false => rfl
        | true => exact absurd hpa ha
      rcases hsp : splitChar p rest with _ | ⟨h0, t⟩
      · rw [hsp] at hp
        simp only [List.mem_singleton] at hp
        subst hp
        rcases List.mem_singleton.mp hc with rfl
        exact ⟨List.mem_cons_self _ _, ha'⟩
      · rw [hsp] at hp
        rcases List.mem_cons.mp hp with h | h
        · subst h
          rcases List.mem_cons.mp hc with rfl | hch
          · exact ⟨List.mem_cons_self _ _, ha'⟩
          · have h2 := ih (by rw [hsp]; exact List.mem_cons_self _ _) c hch
            exact ⟨List.mem_cons_of_mem _ h2.1, h2.2⟩
        · have h2 := ih (by rw [hsp]; exact List.mem_cons_of_mem _ h) c hc
          exact ⟨List.mem_cons_of_mem _ h2.1, h2.2⟩

theorem zipShape_has_digit {l : List Char} (h : zipShape l = true) :
    ∃ c ∈ l, c.isDigit = true := by
  unfold zipShape at h
  rw [Bool.or_eq_true] at h
  rcases h with h | h
  · rw [Bool.and_eq_true] at h
    obtain ⟨hlen, hall⟩ := h
    have hne : l ≠ [] := by
      intro he; subst he; simp at hlen
    obtain ⟨c, hc⟩ := List.exists_mem_of_ne_nil l hne
    exact ⟨c, hc, List.all_eq_true.mp hall c hc⟩
  · rw [Bool.and_eq_true, Bool.and_eq_true, Bool.and_eq_true] at h
    obtain ⟨⟨⟨hlen, htake⟩, _⟩, _⟩ := h
    have hne : l.take 5 ≠ [] := by
      intro he
      rw [List.take_eq_nil_iff] at he
      rcases he with h5 | hnil
      · exact absurd h5 (by decide)
      · subst hnil; simp at hlen
    obtain ⟨c, hc⟩ := List.exists_mem_of_ne_nil _ hne
    exact ⟨c, List.take_subset _ _ hc, List.all_eq_true.mp htake c hc⟩

theorem ldl_has_alpha {l : List Char} (h : ldl l = true) :
    ∃ c ∈ l, c.isAlpha = true := by
  unfold ldl at h
  rw [Bool.and_eq_true, Bool.and_eq_true, Bool.and_eq_true] at h
  obtain ⟨⟨⟨hlen, hhead⟩, _⟩, _⟩ := h
  cases l with
  | nil => simp at hlen
  | cons c rest => exact ⟨c, List.mem_cons_self _ _, by simpa using hhead⟩

theorem canShape_has_alpha {l : List Char} (h : canShape l = true) :
    ∃ c ∈ l, c.isAlpha = true := by
  unfold canShape at h
  rw [Bool.or_eq_true, Bool.or_eq_true] at h
  rcases h with (h | h) | h
  · exact ldl_has_alpha h
  · rw [Bool.and_eq_true, Bool.and_eq_true] at h
    obtain ⟨⟨_, hl⟩, _⟩ := h
    obtain ⟨c, hc, hca⟩ := ldl_has_alpha hl
    exact ⟨c, List.take_subset _ _ hc, hca⟩
  · rw [Bool.and_eq_true, Bool.and_eq_true, Bool.and_eq_true] at h
    obtain ⟨⟨⟨_, hl⟩, _⟩, _⟩ := h
    obtain ⟨c, hc, hca⟩ := ldl_has_alpha hl
    exact ⟨c, List.take_subset _ _ hc, hca⟩

theorem pyWS_not_digit {c : Char} (h : pyWS c = true) : c.isDigit = false := by
  simp only [pyWS, Bool.or_eq_true, beq_iff_eq] at h
  rcases h with ((((rfl | rfl) | rfl) | rfl) | rfl) | rfl <;> decide

theorem pyWS_not_alpha {c : Char} (h : pyWS c = true) : c.isAlpha = false := by
  simp only [pyWS, Bool.or_eq_true, beq_iff_eq] at h
  rcases h with ((((rfl | rfl) | rfl) | rfl) | rfl) | rfl <;> decide

theorem commaWS_not_digit {c : Char} (h : c = ',' ∨ pyWS c = true) :
    c.isDigit = false := by
  rcases h with rfl | h
  · decide
  · exact pyWS_not_digit h

theorem commaWS_not_alpha {c : Char} (h : c = ',' ∨ pyWS c = true) :
    c.isAlpha = false := by
  rcases h with rfl | h
  · decide
  · exact pyWS_not_alpha h

theorem strip_data (s : String) : (strip s).data = stripChars pyWS s.data := rfl

theorem mem_strip_data {s : String} {c : Char} (h : c ∈ (strip s).data) :
    c ∈ s.data :=
  mem_of_mem_stripChars (strip_data s ▸ h)

theorem componentsOf_eq_nil {raw : String}
    (hall : ∀ c ∈ raw.data, c = ',' ∨ pyWS c = true) :
    componentsOf raw = [] := by
  unfold componentsOf splitComma
  rw [List.filter_eq_nil_iff]
  intro x hx
  rw [List.map_map] at hx
  obtain ⟨piece, hpiece, hxeq⟩ := List.mem_map.mp hx
  have hws : ∀ c ∈ piece, pyWS c = true := by
    intro c hc
    have h2 := splitChar_mem hpiece c hc
    rcases hall c h2.1 with rfl | hw
    · rw [show ((',' : Char) == ',') = true from rfl] at h2
      exact absurd h2.2 (by simp)
    · exact hw
  have hnil : stripChars pyWS piece = [] := stripChars_eq_nil_of_all hws
  subst hxeq
  simp only [Function.comp_apply, strip, String.data, hnil]
  simp

theorem parseFromComponents_nil (ui : String) :
    parseFromComponents ui [] =
      { raw := ui, city := none, region := none, country := none,
        postal_code := none } := rfl

/-! ### Claim theorems -/

/-- C1 counterexample: the input ", ," consists only of commas and
whitespace, yet parse_location_input does not raise the empty-input error;
it returns an all-empty location, because stripping removes only whitespace
and the remaining commas make the trimmed input non-empty. -/
theorem c1_counterexample :
    parse_location_input ", ," =
      Except.ok { raw := ", ,", city := none, region := none, country := none,
                  postal_code := none } := by rfl

/-- C1 (amended): for an input consisting only of commas and whitespace
characters, parse_location_input raises the empty-input error exactly when
the whitespace-trimmed input is empty (that is, when the input contains no
comma); when a comma is present the trimmed input is non-empty and the
parser instead returns a location with no city, region, country, or postal
code set. -/
theorem parse_commas_whitespace (s : String)
    (hall : ∀ c ∈ s.data, c = ',' ∨ pyWS c = true) :
    (strip s = "" →
      parse_location_input s = Except.error "Location input cannot be empty.")
    ∧ (strip s ≠ "" →
      parse_location_input s =
        Except.ok { raw := s, city := none, region := none, country := none,
                    postal_code := none }) := by
  constructor
  · intro h
    simp only [parse_location_input]
    rw [if_pos h]
  · intro h
    have hallStrip : ∀ c ∈ (strip s).data, c = ',' ∨ pyWS c = true :=
      fun c hc => hall c (mem_strip_data hc)
    have hz : zipShape (strip s).data = false := by
      cases hzs : zipShape (strip s).data with
      | false => rfl
      | true =>
        obtain ⟨c, hc, hd⟩ := zipShape_has_digit hzs
        rw [commaWS_not_digit (hallStrip c hc)] at hd
        exact absurd hd (by simp)
    have hcn : canShape (strip s).data = false := by
      cases hcs : canShape (strip s).data with
      | false => rfl
      | true =>
        obtain ⟨c, hc, ha⟩ := canShape_has_alpha hcs
        rw [commaWS_not_alpha (hallStrip c hc)] at ha
        exact absurd ha (by simp)
    simp only [parse_location_input]
    rw [if_neg h, if_neg (by rw [hz, hcn]; simp),
        componentsOf_eq_nil hallStrip, parseFromComponents_nil]

/-- C1 witness for the amended claim: a single comma contains a comma, so
the trimmed input is non-empty and the all-empty location is returned. -/
theorem parse_commas_whitespace_witness :
    parse_location_input "," =
      Except.ok { raw := ",", city := none, region := none, country := none,
                  postal_code := none } :=
  (parse_commas_whitespace "," (by decide)).2 (by decide)

/-- C2: parse_location_input fails exactly when the whitespace-trimmed
input is empty, and on every other input it returns a location normally;
no other condition ever produces an error. -/
theorem parse_error_iff_blank (s : String) :
    (strip s = "" →
      parse_location_input s = Except.error "Location input cannot be empty.")
    ∧ (strip s ≠ "" → ∃ loc, parse_location_input s = Except.ok loc) := by
  constructor
  · intro h
    simp only [parse_location_input]
    rw [if_pos h]
  · intro h
    simp only [parse_location_input]
    rw [if_neg h]
    by_cases hsh : (zipShape (strip s).data || canShape (strip s).data) = true
    · rw [if_pos hsh]
      exact ⟨_, rfl⟩
    · rw [if_neg hsh]
      exact ⟨_, rfl⟩

/-- C2 witness: a whitespace-only input errors, and an ordinary city name
parses to some location. -/
theorem parse_error_iff_blank_witness :
    parse_location_input "   " = Except.error "Location input cannot be empty."
    ∧ ∃ loc, parse_location_input "Paris" = Except.ok loc :=
  ⟨(parse_error_iff_blank "   ").1 (by decide),
   (parse_error_iff_blank "Paris").2 (by decide)⟩

/-- C5: a window with no countries and the single region "North America"
matches a location whose only set field is the country "United States",
through the macro-region token that country contributes to the location's
token set. -/
theorem matches_macroregion_north_america :
    _window_matches_location
      { countries := [], regions := ["North America"], notes := "" }
      { raw := "United States", city := none, region := none,
        country := some "United States", postal_code := none } = true := by
  rfl

/-- C6: a window with empty countries and empty regions matches every
location, whatever its notes and whatever fields the location carries. -/
theorem empty_window_matches_all (notes : String) (loc : LocationQuery) :
    _window_matches_location
      { countries := [], regions := [], notes := notes } loc = true := rfl

/-- C9: parsing "Ontario, Canada" classifies both segments (no segment is
left for the city), the leftmost segment "Ontario" is reused as the
fallback city, and the final normalization collapses that city to none
because it equals the region case-insensitively, leaving region "Ontario"
and country "Canada". -/
theorem parse_ontario_canada :
    componentsOf (strip "Ontario, Canada") = ["Ontario", "Canada"]
    ∧ classifySegments ["Ontario", "Canada"] =
        (none, some "Ontario", some "Canada")
    ∧ parse_location_input "Ontario, Canada" =
        Except.ok { raw := "Ontario, Canada", city := none,
                    region := some "Ontario", country := some "Canada",
                    postal_code := none } :=
  ⟨by rfl, by rfl, by rfl⟩

/-- C10: the region alias dictionary is built by inserting the US, Canada,
Mexico, Spain, Australia, and New Zealand tables in that order, so on the
shared two-letter keys "wa" and "nt" the Australian insertions overwrite
the earlier Washington and Northwest Territories bindings, which are
nevertheless present earlier in the insertion sequence. -/
theorem region_alias_last_wins :
    dictGet _REGION_ALIAS_LOOKUP "wa" =
        some ("Western Australia", some "Australia")
    ∧ dictGet _REGION_ALIAS_LOOKUP "nt" =
        some ("Northern Territory", some "Australia")
    ∧ ("wa", "Washington", some "United States") ∈ _REGION_ALIAS_LOOKUP
    ∧ ("nt", "Northwest Territories", some "Canada") ∈ _REGION_ALIAS_LOOKUP :=
  ⟨by rfl, by rfl, by decide, by decide⟩

theorem next_visible_event_eq_find (events : List EclipseEvent)
    (loc : LocationQuery) (ref : Nat) :
    next_visible_event events loc ref =
      events.find? (fun e => !decide (e.occurs_on < ref) && is_visible_from e loc) := by
  induction events with
  | nil => rfl
  | cons e rest ih =>
    by_cases hd : e.occurs_on < ref
    · rw [next_visible_event, if_pos hd, ih,
          List.find?_cons_of_neg _ (by simp [hd])]
    · by_cases hv : is_visible_from e loc = true
      · rw [next_visible_event, if_neg hd, if_pos hv,
            List.find?_cons_of_pos _ (by simp [hd, hv])]
      · rw [next_visible_event, if_neg hd, if_neg hv, ih,
            List.find?_cons_of_neg _ (by simp [hd, hv])]

/-- C3: over a date-ascending event sequence, next_visible_event returns
the first event in sequence order whose date is not before the reference
date and which is visible from the location; when every event is dated
before the reference date it returns none regardless of visibility. -/
theorem next_visible_event_spec (events : List EclipseEvent)
    (loc : LocationQuery) (ref : Nat)
    (hsorted : events.Pairwise (fun a b => a.occurs_on ≤ b.occurs_on)) :
    next_visible_event events loc ref =
      events.find? (fun e => !decide (e.occurs_on < ref) && is_visible_from e loc)
    ∧ ((∀ e ∈ events, e.occurs_on < ref) →
        next_visible_event events loc ref = none) := by
  refine ⟨next_visible_event_eq_find events loc ref, fun hall => ?_⟩
  rw [next_visible_event_eq_find events loc ref]
  rw [List.find?_eq_none]
  intro e he
  simp [hall e he]

/-- C3 witness: a lone globally visible event dated before the reference
date is skipped, so the scan returns none, and the find characterization
holds at this input. -/
theorem next_visible_event_spec_witness :
    next_visible_event
        [{ occurs_on := 10, kind := "solar", subtype := "Total", title := "T",
           visibility := [{ countries := [], regions := [], notes := "" }],
           peak_description := "" }]
        { raw := "x", city := none, region := none, country := none,
          postal_code := none } 20 =
      [({ occurs_on := 10, kind := "solar", subtype := "Total", title := "T",
          visibility := [{ countries := [], regions := [], notes := "" }],
          peak_description := "" } : EclipseEvent)].find?
        (fun e => !decide (e.occurs_on < 20) && is_visible_from e
          { raw := "x", city := none, region := none, country := none,
            postal_code := none })
    ∧ ((∀ e ∈ [({ occurs_on := 10, kind := "solar", subtype := "Total",
                  title := "T",
                  visibility := [{ countries := [], regions := [], notes := "" }],
                  peak_description := "" } : EclipseEvent)],
          e.occurs_on < 20) →
        next_visible_event
          [{ occurs_on := 10, kind := "solar", subtype := "Total", title := "T",
             visibility := [{ countries := [], regions := [], notes := "" }],
             peak_description := "" }]
          { raw := "x", city := none, region := none, country := none,
            postal_code := none } 20 = none) :=
  next_visible_event_spec _ _ _ (List.pairwise_singleton _ _)

/-- C4: when a window lists at least one country and neither the location's
country (lowercased) is among the window's lowercased countries nor the
location's token set intersects them, the window does not match, even if
the location's region or tokens would overlap the window's regions. -/
theorem window_country_gate (w : VisibilityWindow) (loc : LocationQuery)
    (h1 : w.countries ≠ [])
    (h2 : ∀ c, loc.country = some c →
      (w.countries.map lowerS).contains (lowerS c) = false)
    (h3 : interB (tokens loc) (w.countries.map lowerS) = false) :
    _window_matches_location w loc = false := by
  have hne : (w.countries.map lowerS).isEmpty = false := by
    cases hw : w.countries with
    | nil => exact absurd hw h1
    | cons a t => simp [hw]
  have hgate : _window_country_gate w loc = false := by
    simp only [_window_country_gate]
    rw [hne]
    cases hc : loc.country with
    | none => simpa [truthy] using h3
    | some c =>
      by_cases hce : c = ""
      · subst hce
        simpa [truthy] using h3
      · have ht : truthy (some c) = true := by simp [truthy, hce]
        rw [ht]
        simp only [if_true, Option.getD_some, reduceIte]
        rw [h2 c hc, h3]
        rfl
  simp only [_window_matches_location]
  rw [hgate]
  rfl

/-- C4 witness: a location carrying only the region "Texas" does not match
a window with countries ["France"] and regions ["Texas"]. -/
theorem window_country_gate_witness :
    _window_matches_location
      { countries := ["France"], regions := ["Texas"], notes := "" }
      { raw := "Texas", city := none, region := some "Texas", country := none,
        postal_code := none } = false :=
  window_country_gate _ _ (by decide) (fun c h => nomatch h) (by decide)

/-- C7: whenever the trimmed input has the 5-digit (optionally hyphenated)
ZIP shape or the letter-digit-letter postal shape, parse_location_input
takes the postal shortcut: the result's postal code is the trimmed input,
the city is never set, and region and country come from the postal
resolver, staying empty when resolution fails. -/
theorem parse_postal_shortcut (s : String)
    (h : zipShape (strip s).data = true ∨ canShape (strip s).data = true) :
    parse_location_input s =
      Except.ok { raw := s, city := none,
                  region := (resolve_postal_code (strip s)).map Prod.fst,
                  country := (resolve_postal_code (strip s)).map Prod.snd,
                  postal_code := some (strip s) } := by
  have hne : strip s ≠ "" := by
    intro he
    rw [he] at h
    rcases h with h | h <;> exact absurd h (by decide)
  have hsh : (zipShape (strip s).data || canShape (strip s).data) = true := by
    rcases h with h | h <;> simp [h]
  simp only [parse_location_input]
  rw [if_neg hne, if_pos hsh]

/-- C7 witness: a Canadian-shape postal code takes the shortcut; resolution
succeeds and fills region Ontario and country Canada, the city stays
unset. -/
theorem parse_postal_shortcut_witness :
    parse_location_input "K1A 0B1" =
      Except.ok { raw := "K1A 0B1", city := none, region := some "Ontario",
                  country := some "Canada", postal_code := some "K1A 0B1" } := by
  have h := parse_postal_shortcut "K1A 0B1" (Or.inr (by decide))
  rw [h]
  rfl

theorem zipRangeScan_eq_find (n : Nat) (l : List (Nat × Nat × String)) :
    zipRangeScan n l =
      (l.find? (fun t => t.1 ≤ n && n ≤ t.2.1)).map
        (fun t => (t.2.2, "United States")) := by
  induction l with
  | nil => rfl
  | cons t rest ih =>
    obtain ⟨lo, hi, st⟩ := t
    by_cases hc : (lo ≤ n && n ≤ hi) = true
    · rw [zipRangeScan, if_pos hc,
          List.find?_cons_of_pos (p := fun t => t.1 ≤ n && n ≤ t.2.1) rest hc]
      rfl
    · rw [zipRangeScan, if_neg hc, ih,
          List.find?_cons_of_neg (p := fun t => t.1 ≤ n && n ≤ t.2.1) rest hc]

/-- C8: parsing "78701" resolves the 3-digit prefix 787 through the range
table, whose scan returns the first inclusive range containing the prefix
(750 to 799, Texas, country United States); a prefix contained in no range,
such as 000, makes resolution fail and leaves region and country empty. -/
theorem parse_zip_78701 :
    parse_location_input "78701" =
      Except.ok { raw := "78701", city := none, region := some "Texas",
                  country := some "United States", postal_code := some "78701" }
    ∧ (∀ p : Nat, zipRangeScan p _ZIP_STATE_RANGES =
        (_ZIP_STATE_RANGES.find? (fun t => t.1 ≤ p && p ≤ t.2.1)).map
          (fun t => (t.2.2, "United States")))
    ∧ parse_location_input "00000" =
        Except.ok { raw := "00000", city := none, region := none,
                    country := none, postal_code := some "00000" } :=
  ⟨by rfl, fun p => zipRangeScan_eq_find p _ZIP_STATE_RANGES, by rfl⟩

end EclipseFinder
